import Mathlib

/-!
# Verification of the `aimd-bucket` AIMD rate-limiting bucket

Shallow embedding of `src/index.ts` (classes `AIMDBucket` and
`AIMDBucketToken`).  JavaScript numbers are modelled as rationals `ℚ`
(the claims under study only use ordering, `min`/`max`, `+`, `*`, `/`,
all of which the source applies to finite values); `Date.now()`
timestamps are passed explicitly as a `now : ℚ` argument to every
operation that reads the clock.  Promise resolution/rejection is
modelled by returning the list of waiters that were served or rejected;
`setTimeout` handles are modelled as booleans saying whether the
corresponding one-shot timer is currently armed, and a timer firing is
an explicit step guarded on that flag.
-/

namespace AIMD

/-- The outcome kinds a token can be completed with
(`"success" | "failure" | "rateLimited" | "timeout"` in the source). -/
inductive Outcome where
  | success
  | failure
  | rateLimited
  | timeout
deriving DecidableEq, Repr

/-- One entry of `AIMDBucket.recentOutcomes`: `{ timestamp, outcome }`. -/
structure OutcomeEntry where
  timestamp : ℚ
  outcome : Outcome
deriving DecidableEq, Repr

/-- `Required<AIMDBucketConfig>`: the configuration record after the
constructor has applied all defaults. -/
structure Config where
  maxRate : ℚ
  minRate : ℚ
  initialRate : ℚ
  increaseDelta : ℚ
  decreaseMultiplier : ℚ
  failureThreshold : ℚ
  tokenReturnTimeoutMs : ℚ
  windowMs : ℚ
deriving DecidableEq, Repr

/-- The optional `AIMDBucketConfig` the caller passes to the constructor. -/
structure ConfigInput where
  maxRate : Option ℚ := none
  minRate : Option ℚ := none
  initialRate : Option ℚ := none
  increaseDelta : Option ℚ := none
  decreaseMultiplier : Option ℚ := none
  failureThreshold : Option ℚ := none
  tokenReturnTimeoutMs : Option ℚ := none
  windowMs : Option ℚ := none

/-- `Number.MAX_SAFE_INTEGER / 2`, the default used for `maxRate`
("effectively infinity, but we can still do math on it"). -/
def maxSafeIntegerHalf : ℚ := 9007199254740991 / 2

/-- Default application performed at the top of the `AIMDBucket`
constructor (the `??` chain building `this.config`). -/
def applyDefaults (c : ConfigInput) : Config :=
  let maxRate := c.maxRate.getD maxSafeIntegerHalf
  { maxRate := maxRate
    minRate := c.minRate.getD 1
    initialRate := c.initialRate.getD maxRate
    increaseDelta := c.increaseDelta.getD 1
    decreaseMultiplier := c.decreaseMultiplier.getD (1/2)
    failureThreshold := c.failureThreshold.getD (1/5)
    tokenReturnTimeoutMs := c.tokenReturnTimeoutMs.getD 30000
    windowMs := c.windowMs.getD 30000 }

/-- One queued waiter of `AIMDBucket.pending`
(`{ resolve, reject, timestamp }`): the resolve/reject handles are
identified by an abstract id, the enqueue `timestamp` is kept. -/
structure Waiter where
  id : ℕ
  timestamp : ℚ
deriving DecidableEq, Repr

/-- The mutable state of one `AIMDBucket` instance.  `pendingTimer`
models whether the one-shot pending-check `setTimeout` is armed. -/
structure BucketState where
  config : Config
  rate : ℚ
  tokens : ℚ
  capacity : ℚ
  lastRefill : ℚ
  recentOutcomes : List OutcomeEntry
  tokensIssued : ℕ
  pending : List Waiter
  isShutdown : Bool
  pendingTimer : Bool
deriving DecidableEq, Repr

/-- `AIMDBucket._validate`: the checks, in source order; returns the
message of the first failing check. -/
def validate (c : Config) : Except String Unit :=
  if c.initialRate ≤ 0 then .error "initialRate must be positive"
  else if c.maxRate ≤ 0 then .error "maxRate must be positive"
  else if c.minRate ≤ 0 then .error "minRate must be positive"
  else if c.minRate > c.maxRate then .error "minRate cannot be greater than maxRate"
  else if c.decreaseMultiplier ≤ 0 ∨ c.decreaseMultiplier ≥ 1 then
    .error "decreaseMultiplier must be between 0 and 1"
  else if c.failureThreshold < 0 ∨ c.failureThreshold > 1 then
    .error "failureThreshold must be between 0 and 1"
  else .ok ()

/-- The `AIMDBucket` constructor after defaults: validate, then
`rate = min(initialRate, maxRate)`, `capacity = max(1, rate)`,
`tokens = capacity`, everything else empty.  `now` is the `Date.now()`
read by the `lastRefill` field initializer. -/
def mkBucket (c : Config) (now : ℚ) : Except String BucketState :=
  match validate c with
  | .error e => .error e
  | .ok _ =>
    let rate := min c.initialRate c.maxRate
    let capacity := max 1 rate
    .ok { config := c
          rate := rate
          tokens := capacity
          capacity := capacity
          lastRefill := now
          recentOutcomes := []
          tokensIssued := 0
          pending := []
          isShutdown := false
          pendingTimer := false }

/-- The `while (this.pending.length > 0 && this.tokens >= 1)` drain loop
of `AIMDBucket._refill`: serves waiters from the front of the queue,
one token each.  Returns the remaining tokens, the remaining queue, the
number of tokens issued by the loop and the waiters served (in order). -/
def drain (tokens : ℚ) (pending : List Waiter) : ℚ × List Waiter × ℕ × List Waiter :=
  match pending with
  | [] => (tokens, [], 0, [])
  | w :: rest =>
    if 1 ≤ tokens then
      let r := drain (tokens - 1) rest
      (r.1, r.2.1, r.2.2.1 + 1, w :: r.2.2.2)
    else
      (tokens, w :: rest, 0, [])

/-- `AIMDBucket._refill`: advance `tokens` by elapsed time, serve
queued waiters FIFO, clear the pending timer once the queue is empty.
Also returns the waiters that were resolved with fresh tokens. -/
def refill (now : ℚ) (s : BucketState) : BucketState × List Waiter :=
  let elapsed := (now - s.lastRefill) / 1000
  let tokens₀ := min s.capacity (s.tokens + elapsed * s.rate)
  let r := drain tokens₀ s.pending
  let pending' := r.2.1
  let timer' := if pending' = [] then false else s.pendingTimer
  ({ s with tokens := r.1
            lastRefill := now
            pending := pending'
            tokensIssued := s.tokensIssued + r.2.2.1
            pendingTimer := timer' },
   r.2.2.2)

/-- The windowing filter `(o) => now - o.timestamp <= windowMs`, shared
between `_adjustRate` and `getStatistics`. -/
def pruneWindow (now windowMs : ℚ) (l : List OutcomeEntry) : List OutcomeEntry :=
  l.filter (fun o => now - o.timestamp ≤ windowMs)

/-- `recentOutcomes.filter((o) => o.outcome !== "success").length`:
the non-success count used by `_adjustRate`. -/
def failCount (l : List OutcomeEntry) : ℕ :=
  (l.filter (fun o => o.outcome ≠ .success)).length

/-- `AIMDBucket._adjustRate`: prune the ledger to the sliding window,
require at least 5 samples, compare the failure rate with the threshold
strictly, and recompute `capacity` after a rate change. -/
def adjustRate (now : ℚ) (s : BucketState) : BucketState :=
  let recent := pruneWindow now s.config.windowMs s.recentOutcomes
  if recent.length < 5 then
    { s with recentOutcomes := recent }
  else
    let failureRate : ℚ := (failCount recent : ℚ) / (recent.length : ℚ)
    let rate' :=
      if failureRate > s.config.failureThreshold then
        max s.config.minRate (s.rate * s.config.decreaseMultiplier)
      else
        min s.config.maxRate (s.rate + s.config.increaseDelta)
    { s with recentOutcomes := recent
             rate := rate'
             capacity := max 1 rate' }

/-- `AIMDBucket._onTokenComplete`: push the outcome, adjust the rate,
then refill/drain. -/
def onTokenComplete (now : ℚ) (o : Outcome) (s : BucketState) :
    BucketState × List Waiter :=
  refill now (adjustRate now { s with recentOutcomes := s.recentOutcomes ++ [⟨now, o⟩] })

/-- `AIMDBucket._onTokenTimeout`: identical to completion with a
`timeout` outcome. -/
def onTokenTimeout (now : ℚ) (s : BucketState) : BucketState × List Waiter :=
  onTokenComplete now .timeout s

/-- `AIMDBucket._schedulePendingCheck`: arm the one-shot timer unless it
is already armed or the bucket is shut down.  (The delay it computes,
`max(100, 1000 / rate)`, is `pendingCheckDelay` below.) -/
def schedulePendingCheck (s : BucketState) : BucketState :=
  if s.pendingTimer ∨ s.isShutdown then s else { s with pendingTimer := true }

/-- The delay `Math.max(100, 1000 / this.rate)` used when arming the
pending-check timer. -/
def pendingCheckDelay (s : BucketState) : ℚ :=
  max 100 (1000 / s.rate)

/-- Errors surfaced to callers of the public API. -/
inductive BucketError where
  | shutDown
deriving DecidableEq, Repr

/-- Result of `AIMDBucket.acquire`: either a token was issued
immediately, or the caller was enqueued as a waiter. -/
inductive AcquireResult where
  | issued
  | enqueued (w : Waiter)
deriving DecidableEq, Repr

/-- `AIMDBucket.acquire`: fail fast when shut down; otherwise refill
(also serving earlier waiters), then either take a token immediately or
enqueue a fresh waiter (with id `wid`) and arm the pending check. -/
def acquire (now : ℚ) (wid : ℕ) (s : BucketState) :
    Except BucketError (BucketState × AcquireResult × List Waiter) :=
  if s.isShutdown then
    .error .shutDown
  else
    let r := refill now s
    let s₁ := r.1
    if 1 ≤ s₁.tokens then
      .ok ({ s₁ with tokens := s₁.tokens - 1, tokensIssued := s₁.tokensIssued + 1 },
           .issued, r.2)
    else
      let w : Waiter := ⟨wid, now⟩
      .ok (schedulePendingCheck { s₁ with pending := s₁.pending ++ [w] },
           .enqueued w, r.2)

/-- The pending-check timer firing: clear the armed flag, refill/drain,
then re-arm via `_schedulePendingCheck` only
`if (this.pending.length > 0 && !this.isShutdown)`.  A timer can only
fire while armed, hence the outer guard. -/
def pendingCheckFire (now : ℚ) (s : BucketState) : BucketState × List Waiter :=
  if s.pendingTimer then
    let r := refill now { s with pendingTimer := false }
    (if r.1.pending ≠ [] ∧ r.1.isShutdown = false then schedulePendingCheck r.1
     else r.1,
     r.2)
  else
    (s, [])

/-- `AIMDBucket.shutdown`: latch the flag, clear the pending timer,
empty the queue and reject every queued waiter (returned in FIFO order,
each rejected with the `ShutDown` error). -/
def shutdown (s : BucketState) : BucketState × List Waiter :=
  ({ s with isShutdown := true, pendingTimer := false, pending := [] }, s.pending)

/-- `AIMDBucket.getCurrentRate`. -/
def getCurrentRate (s : BucketState) : ℚ :=
  s.rate

/-- The record returned by `AIMDBucket.getStatistics`. -/
structure Statistics where
  currentRate : ℚ
  tokensAvailable : ℚ
  tokensIssued : ℕ
  successCount : ℕ
  failureCount : ℕ
  pendingCount : ℕ
  rateLimitedCount : ℕ
  timeoutCount : ℕ
  successRate : ℚ
deriving DecidableEq, Repr

/-- `AIMDBucket.getStatistics`: counts over the pruned window (the
pruned list is a local, `this.recentOutcomes` is not reassigned), with
`successRate = 0` when the window is empty. -/
def getStatistics (now : ℚ) (s : BucketState) : Statistics :=
  let recent := pruneWindow now s.config.windowMs s.recentOutcomes
  let successCount := (recent.filter (fun o => o.outcome = .success)).length
  let failureCount := (recent.filter (fun o => o.outcome = .failure)).length
  let rateLimitedCount := (recent.filter (fun o => o.outcome = .rateLimited)).length
  let timeoutCount := (recent.filter (fun o => o.outcome = .timeout)).length
  let total := recent.length
  { currentRate := s.rate
    tokensAvailable := s.tokens
    pendingCount := s.pending.length
    tokensIssued := s.tokensIssued
    successCount := successCount
    failureCount := failureCount
    rateLimitedCount := rateLimitedCount
    timeoutCount := timeoutCount
    successRate := if total > 0 then (successCount : ℚ) / (total : ℚ) else 0 }

/-- `AIMDBucket.getStatistics` as a state transformer, translated
statement-by-statement from the method body: every read is of a local
binding or a field, and no field is assigned, so the state component of
the result is the input state. -/
def getStatisticsRun (now : ℚ) (s : BucketState) : Statistics × BucketState :=
  (getStatistics now s, s)

/-- The state of one `AIMDBucketToken`: `completed`, `expired`, and
whether its expiry `setTimeout` is still armed (`timeoutHandle` set and
not yet cleared or fired). -/
structure TokenState where
  completed : Bool
  expired : Bool
  timerArmed : Bool
deriving DecidableEq, Repr

/-- The `AIMDBucketToken` constructor: the expiry timer is armed only
when `timeoutMs > 0`. -/
def mkToken (timeoutMs : ℚ) : TokenState :=
  { completed := false, expired := false, timerArmed := timeoutMs > 0 }

/-- `AIMDBucketToken.isCompleted`. -/
def isCompleted (t : TokenState) : Bool := t.completed

/-- `AIMDBucketToken.isExpired`. -/
def isExpired (t : TokenState) : Bool := t.expired

/-- The errors `AIMDBucketToken._complete` can throw. -/
inductive CompleteError where
  | alreadyCompleted
  | expired
deriving DecidableEq, Repr

/-- `AIMDBucketToken._complete`: checks `completed` then `expired`
(throwing before any mutation, so on error the token, ledger and rate
are untouched); on the happy path marks the token completed, clears the
expiry timer and notifies the bucket. -/
def tokenComplete (o : Outcome) (now : ℚ) (t : TokenState) (b : BucketState) :
    Except CompleteError (TokenState × BucketState × List Waiter) :=
  if t.completed then
    .error .alreadyCompleted
  else if t.expired then
    .error .expired
  else
    let t' : TokenState := { t with completed := true, timerArmed := false }
    let r := onTokenComplete now o b
    .ok (t', r.1, r.2)

/-- The token's expiry timer firing (only possible while armed: a
cleared or never-armed timer cannot fire): mark the token expired and
record a `timeout` outcome through the bucket. -/
def tokenTimerFire (now : ℚ) (t : TokenState) (b : BucketState) :
    TokenState × BucketState × List Waiter :=
  if t.timerArmed then
    let r := onTokenTimeout now b
    ({ t with expired := true, timerArmed := false }, r.1, r.2)
  else
    (t, b, [])

/-! ## Predicates and the step relation used by the invariant claims -/

/-- The conditions `_validate` enforces (a configuration passing every
check of the constructor). -/
def ValidCfg (c : Config) : Prop :=
  0 < c.initialRate ∧ 0 < c.maxRate ∧ 0 < c.minRate ∧ c.minRate ≤ c.maxRate ∧
    0 < c.decreaseMultiplier ∧ c.decreaseMultiplier < 1 ∧
    0 ≤ c.failureThreshold ∧ c.failureThreshold ≤ 1

/-- The reservoir/rate invariant maintained between operations:
`0 ≤ tokens ≤ capacity`, `capacity = max(1, rate)` and
`0 ≤ rate ≤ maxRate`. -/
def StateInv (s : BucketState) : Prop :=
  0 ≤ s.tokens ∧ s.tokens ≤ s.capacity ∧ s.capacity = max 1 s.rate ∧
    0 ≤ s.rate ∧ s.rate ≤ s.config.maxRate

/-- One observable operation on a bucket, each taken at a clock reading
`now` not earlier than the last refill (the clock is monotone).  These
are exactly the entry points that mutate bucket state in the source:
`acquire`, token completion, token expiry, the pending-check timer
firing, and `shutdown`. -/
inductive Step : BucketState → BucketState → Prop where
  | acquire (now : ℚ) (wid : ℕ) (s s' : BucketState) (res : AcquireResult)
      (served : List Waiter) (ht : s.lastRefill ≤ now)
      (h : acquire now wid s = .ok (s', res, served)) : Step s s'
  | complete (now : ℚ) (o : Outcome) (s : BucketState) (ht : s.lastRefill ≤ now) :
      Step s (onTokenComplete now o s).1
  | timeoutFire (now : ℚ) (s : BucketState) (ht : s.lastRefill ≤ now) :
      Step s (onTokenTimeout now s).1
  | tick (now : ℚ) (s : BucketState) (ht : s.lastRefill ≤ now) :
      Step s (pendingCheckFire now s).1
  | shutdownStep (s : BucketState) : Step s (shutdown s).1

/-! ## Concrete states used to exercise the claims -/

/-- A small concrete configuration: `maxRate 10`, `minRate 1`,
`initialRate 10`, defaults elsewhere. -/
def exampleConfig : Config :=
  { maxRate := 10, minRate := 1, initialRate := 10, increaseDelta := 1,
    decreaseMultiplier := 1/2, failureThreshold := 1/5,
    tokenReturnTimeoutMs := 30000, windowMs := 30000 }

/-- The bucket `exampleConfig` constructs at time 0. -/
def exampleInit : BucketState :=
  { config := exampleConfig, rate := 10, tokens := 10, capacity := 10,
    lastRefill := 0, recentOutcomes := [], tokensIssued := 0, pending := [],
    isShutdown := false, pendingTimer := false }

/-- A ledger entry recording a `failure` at time 0. -/
def failAt0 : OutcomeEntry := ⟨0, .failure⟩

/-- A ledger entry recording a `success` at time 0. -/
def succAt0 : OutcomeEntry := ⟨0, .success⟩

/-- `exampleInit` after four `success` completions at time 0. -/
def exampleFourSucc : BucketState :=
  { exampleInit with recentOutcomes := [succAt0, succAt0, succAt0, succAt0] }

/-- `exampleInit` after four `failure` completions at time 0. -/
def exampleAfter4 : BucketState :=
  { exampleInit with recentOutcomes := [failAt0, failAt0, failAt0, failAt0] }

/-- The internal state reached inside the fifth `failure` completion,
immediately after `_adjustRate` has halved the rate and recomputed
`capacity` but before the trailing `_refill` runs. -/
def exampleMid : BucketState :=
  adjustRate 0 { exampleAfter4 with
                   recentOutcomes := exampleAfter4.recentOutcomes ++ [failAt0] }

/-- A configuration whose `initialRate` is below `minRate`, which
`_validate` accepts: `maxRate 10`, `minRate 5`, `initialRate 1/2`. -/
def lowInitConfig : Config :=
  { maxRate := 10, minRate := 5, initialRate := 1/2, increaseDelta := 1,
    decreaseMultiplier := 1/2, failureThreshold := 1/5,
    tokenReturnTimeoutMs := 30000, windowMs := 30000 }

/-- The bucket `lowInitConfig` constructs at time 0: its starting rate
is `1/2`, below `minRate = 5`. -/
def lowInitBucket : BucketState :=
  { config := lowInitConfig, rate := 1/2, tokens := 1, capacity := 1,
    lastRefill := 0, recentOutcomes := [], tokensIssued := 0, pending := [],
    isShutdown := false, pendingTimer := false }

/-- `lowInitBucket` after four `success` completions at time 0. -/
def lowInitAfter4 : BucketState :=
  { lowInitBucket with recentOutcomes := [succAt0, succAt0, succAt0, succAt0] }

/-- A one-token-per-second configuration used for the refill claim. -/
def unitConfig : Config :=
  { maxRate := 1, minRate := 1, initialRate := 1, increaseDelta := 1,
    decreaseMultiplier := 1/2, failureThreshold := 1/5,
    tokenReturnTimeoutMs := 30000, windowMs := 30000 }

/-- The bucket `unitConfig` constructs at time 0. -/
def unitInit : BucketState :=
  { config := unitConfig, rate := 1, tokens := 1, capacity := 1,
    lastRefill := 0, recentOutcomes := [], tokensIssued := 0, pending := [],
    isShutdown := false, pendingTimer := false }

/-- `unitInit` after one immediate `acquire` at time 0 (token issued,
reservoir empty). -/
def unitAfter1 : BucketState :=
  { unitInit with tokens := 0, tokensIssued := 1 }

/-- A reachable `unitConfig` bucket with an empty reservoir and one
queued waiter: construct at time 0, acquire immediately (token issued,
reservoir empties), acquire again (waiter 1 queued, timer armed). -/
def oneWaiterBucket : BucketState :=
  { config := unitConfig, rate := 1, tokens := 0, capacity := 1,
    lastRefill := 0, recentOutcomes := [], tokensIssued := 1,
    pending := [⟨1, 0⟩], isShutdown := false, pendingTimer := true }

/-! ## Helper lemmas -/

theorem refill_fst_rate (now : ℚ) (s : BucketState) :
    (refill now s).1.rate = s.rate := rfl

theorem refill_fst_capacity (now : ℚ) (s : BucketState) :
    (refill now s).1.capacity = s.capacity := rfl

theorem refill_fst_recentOutcomes (now : ℚ) (s : BucketState) :
    (refill now s).1.recentOutcomes = s.recentOutcomes := rfl

theorem refill_fst_config (now : ℚ) (s : BucketState) :
    (refill now s).1.config = s.config := rfl

theorem refill_fst_lastRefill (now : ℚ) (s : BucketState) :
    (refill now s).1.lastRefill = now := rfl

theorem adjustRate_recentOutcomes (now : ℚ) (s : BucketState) :
    (adjustRate now s).recentOutcomes
      = pruneWindow now s.config.windowMs s.recentOutcomes := by
  unfold adjustRate
  dsimp only
  split <;> rfl

theorem adjustRate_config (now : ℚ) (s : BucketState) :
    (adjustRate now s).config = s.config := by
  unfold adjustRate
  dsimp only
  split <;> rfl

theorem adjustRate_rate_small (now : ℚ) (s : BucketState)
    (h : (pruneWindow now s.config.windowMs s.recentOutcomes).length < 5) :
    (adjustRate now s).rate = s.rate := by
  unfold adjustRate
  dsimp only
  simp only [if_pos h]

theorem adjustRate_capacity_small (now : ℚ) (s : BucketState)
    (h : (pruneWindow now s.config.windowMs s.recentOutcomes).length < 5) :
    (adjustRate now s).capacity = s.capacity := by
  unfold adjustRate
  dsimp only
  simp only [if_pos h]

theorem adjustRate_rate_decrease (now : ℚ) (s : BucketState)
    (h : ¬ (pruneWindow now s.config.windowMs s.recentOutcomes).length < 5)
    (hf : (failCount (pruneWindow now s.config.windowMs s.recentOutcomes) : ℚ)
            / ((pruneWindow now s.config.windowMs s.recentOutcomes).length : ℚ)
          > s.config.failureThreshold) :
    (adjustRate now s).rate
      = max s.config.minRate (s.rate * s.config.decreaseMultiplier) := by
  unfold adjustRate
  dsimp only
  simp only [if_neg h, if_pos hf]

theorem adjustRate_rate_increase (now : ℚ) (s : BucketState)
    (h : ¬ (pruneWindow now s.config.windowMs s.recentOutcomes).length < 5)
    (hf : ¬ (failCount (pruneWindow now s.config.windowMs s.recentOutcomes) : ℚ)
            / ((pruneWindow now s.config.windowMs s.recentOutcomes).length : ℚ)
          > s.config.failureThreshold) :
    (adjustRate now s).rate
      = min s.config.maxRate (s.rate + s.config.increaseDelta) := by
  unfold adjustRate
  dsimp only
  simp only [if_neg h, if_neg hf]

theorem adjustRate_capacity_large (now : ℚ) (s : BucketState)
    (h : ¬ (pruneWindow now s.config.windowMs s.recentOutcomes).length < 5) :
    (adjustRate now s).capacity = max 1 (adjustRate now s).rate := by
  unfold adjustRate
  dsimp only
  simp only [if_neg h]

theorem drain_served_count (t : ℚ) (p : List Waiter) :
    (drain t p).2.2.1 = (drain t p).2.2.2.length := by
  induction p generalizing t with
  | nil => simp [drain]
  | cons w rest ih =>
    by_cases h : 1 ≤ t
    · simp [drain, h, ih]
    · simp [drain, h]

theorem drain_partition (t : ℚ) (p : List Waiter) :
    (drain t p).2.2.2 ++ (drain t p).2.1 = p := by
  induction p generalizing t with
  | nil => simp [drain]
  | cons w rest ih =>
    by_cases h : 1 ≤ t
    · simp [drain, h, ih]
    · simp [drain, h]

theorem drain_tokens_eq (t : ℚ) (p : List Waiter) :
    (drain t p).1 = t - ((drain t p).2.2.1 : ℚ) := by
  induction p generalizing t with
  | nil => simp [drain]
  | cons w rest ih =>
    by_cases h : 1 ≤ t
    · simp only [drain, if_pos h, ih (t - 1)]
      push_cast
      ring
    · simp [drain, h]

theorem drain_exit (t : ℚ) (p : List Waiter) :
    (drain t p).2.1 = [] ∨ (drain t p).1 < 1 := by
  induction p generalizing t with
  | nil => simp [drain]
  | cons w rest ih =>
    by_cases h : 1 ≤ t
    · simpa [drain, h] using ih (t - 1)
    · simp only [drain, if_neg h]
      right
      linarith

theorem drain_nonneg (t : ℚ) (p : List Waiter) (h : 0 ≤ t) :
    0 ≤ (drain t p).1 := by
  induction p generalizing t with
  | nil => simpa [drain]
  | cons w rest ih =>
    by_cases h1 : 1 ≤ t
    · simpa [drain, h1] using ih (t - 1) (by linarith)
    · simpa [drain, h1]

theorem drain_le (t : ℚ) (p : List Waiter) :
    (drain t p).1 ≤ t := by
  rw [drain_tokens_eq]
  have : (0 : ℚ) ≤ ((drain t p).2.2.1 : ℚ) := by positivity
  linarith

theorem drain_low (t : ℚ) (p : List Waiter) (h : t < 1) :
    drain t p = (t, p, 0, []) := by
  cases p with
  | nil => simp [drain]
  | cons w rest => simp [drain, not_le.mpr h]

theorem refill_eq (now : ℚ) (s : BucketState) :
    refill now s
      = ({ s with
            tokens := (drain (min s.capacity
              (s.tokens + (now - s.lastRefill) / 1000 * s.rate)) s.pending).1
            lastRefill := now
            pending := (drain (min s.capacity
              (s.tokens + (now - s.lastRefill) / 1000 * s.rate)) s.pending).2.1
            tokensIssued := s.tokensIssued + (drain (min s.capacity
              (s.tokens + (now - s.lastRefill) / 1000 * s.rate)) s.pending).2.2.1
            pendingTimer := if (drain (min s.capacity
                (s.tokens + (now - s.lastRefill) / 1000 * s.rate)) s.pending).2.1 = []
              then false else s.pendingTimer },
         (drain (min s.capacity
           (s.tokens + (now - s.lastRefill) / 1000 * s.rate)) s.pending).2.2.2) := rfl

theorem adjustRate_tokens (now : ℚ) (s : BucketState) :
    (adjustRate now s).tokens = s.tokens := by
  unfold adjustRate
  dsimp only
  split <;> rfl

theorem adjustRate_lastRefill (now : ℚ) (s : BucketState) :
    (adjustRate now s).lastRefill = s.lastRefill := by
  unfold adjustRate
  dsimp only
  split <;> rfl

theorem adjustRate_pending (now : ℚ) (s : BucketState) :
    (adjustRate now s).pending = s.pending := by
  unfold adjustRate
  dsimp only
  split <;> rfl

theorem adjustRate_rate_nonneg (now : ℚ) (s : BucketState)
    (hv : ValidCfg s.config) (hd : 0 ≤ s.config.increaseDelta)
    (h0 : 0 ≤ s.rate) : 0 ≤ (adjustRate now s).rate := by
  by_cases h : (pruneWindow now s.config.windowMs s.recentOutcomes).length < 5
  · rw [adjustRate_rate_small now s h]
    exact h0
  · by_cases hf : (failCount (pruneWindow now s.config.windowMs s.recentOutcomes) : ℚ)
        / ((pruneWindow now s.config.windowMs s.recentOutcomes).length : ℚ)
        > s.config.failureThreshold
    · rw [adjustRate_rate_decrease now s h hf]
      exact le_trans (le_of_lt hv.2.2.1) (le_max_left _ _)
    · rw [adjustRate_rate_increase now s h hf]
      exact le_min (le_of_lt hv.2.1) (by linarith)

theorem adjustRate_rate_le_max (now : ℚ) (s : BucketState)
    (hv : ValidCfg s.config) (h0 : 0 ≤ s.rate)
    (hmax : s.rate ≤ s.config.maxRate) :
    (adjustRate now s).rate ≤ s.config.maxRate := by
  by_cases h : (pruneWindow now s.config.windowMs s.recentOutcomes).length < 5
  · rw [adjustRate_rate_small now s h]
    exact hmax
  · by_cases hf : (failCount (pruneWindow now s.config.windowMs s.recentOutcomes) : ℚ)
        / ((pruneWindow now s.config.windowMs s.recentOutcomes).length : ℚ)
        > s.config.failureThreshold
    · rw [adjustRate_rate_decrease now s h hf]
      refine max_le hv.2.2.2.1 ?_
      have : s.rate * s.config.decreaseMultiplier ≤ s.rate * 1 :=
        mul_le_mul_of_nonneg_left (le_of_lt hv.2.2.2.2.2.1) h0
      linarith
    · rw [adjustRate_rate_increase now s h hf]
      exact min_le_left _ _

theorem adjustRate_rate_ge_min (now : ℚ) (s : BucketState)
    (hv : ValidCfg s.config) (hd : 0 ≤ s.config.increaseDelta)
    (hmin : s.config.minRate ≤ s.rate) :
    s.config.minRate ≤ (adjustRate now s).rate := by
  by_cases h : (pruneWindow now s.config.windowMs s.recentOutcomes).length < 5
  · rw [adjustRate_rate_small now s h]
    exact hmin
  · by_cases hf : (failCount (pruneWindow now s.config.windowMs s.recentOutcomes) : ℚ)
        / ((pruneWindow now s.config.windowMs s.recentOutcomes).length : ℚ)
        > s.config.failureThreshold
    · rw [adjustRate_rate_decrease now s h hf]
      exact le_max_left _ _
    · rw [adjustRate_rate_increase now s h hf]
      exact le_min hv.2.2.2.1 (by linarith)

theorem adjustRate_capacity_inv (now : ℚ) (s : BucketState)
    (hc : s.capacity = max 1 s.rate) :
    (adjustRate now s).capacity = max 1 (adjustRate now s).rate := by
  by_cases h : (pruneWindow now s.config.windowMs s.recentOutcomes).length < 5
  · rw [adjustRate_capacity_small now s h, adjustRate_rate_small now s h, hc]
  · exact adjustRate_capacity_large now s h

theorem refill_tokens_bounds (now : ℚ) (s : BucketState) (ht : s.lastRefill ≤ now)
    (h0 : 0 ≤ s.tokens) (hr : 0 ≤ s.rate) (hc : 0 ≤ s.capacity) :
    0 ≤ (refill now s).1.tokens ∧ (refill now s).1.tokens ≤ s.capacity := by
  rw [refill_eq]
  dsimp only
  constructor
  · apply drain_nonneg
    refine le_min hc ?_
    have : 0 ≤ (now - s.lastRefill) / 1000 * s.rate := by
      apply mul_nonneg _ hr
      apply div_nonneg _ (by norm_num)
      linarith
    linarith
  · exact le_trans (drain_le _ _) (min_le_left _ _)

theorem schedulePendingCheck_fields (s : BucketState) :
    (schedulePendingCheck s).tokens = s.tokens
    ∧ (schedulePendingCheck s).capacity = s.capacity
    ∧ (schedulePendingCheck s).rate = s.rate
    ∧ (schedulePendingCheck s).config = s.config := by
  unfold schedulePendingCheck
  split <;> exact ⟨rfl, rfl, rfl, rfl⟩

theorem refill_idem (now : ℚ) (s : BucketState) :
    refill now ((refill now s).1) = ((refill now s).1, []) := by
  rw [refill_eq now s]
  set T := min s.capacity (s.tokens + (now - s.lastRefill) / 1000 * s.rate) with hT
  have htok : (drain T s.pending).1 ≤ s.capacity :=
    le_trans (drain_le _ _) (min_le_left _ _)
  rw [refill_eq]
  dsimp only
  have helapsed : (now - now) / 1000 * s.rate = 0 := by ring
  rw [helapsed, add_zero, min_eq_right htok]
  rcases drain_exit T s.pending with hp | hq
  · rw [hp]
    simp [drain]
  · rw [drain_low _ _ hq]
    dsimp only
    by_cases hp2 : (drain T s.pending).2.1 = []
    · simp [hp2]
    · simp [hp2]

theorem acquire_ok_inv (now : ℚ) (wid : ℕ) (s s' : BucketState)
    (res : AcquireResult) (served : List Waiter) (hnow : s.lastRefill ≤ now)
    (hinv : StateInv s) (h : acquire now wid s = .ok (s', res, served)) :
    StateInv s' := by
  obtain ⟨ht0, htc, hcap, hr0, hrm⟩ := hinv
  have hc0 : 0 ≤ s.capacity := by
    rw [hcap]
    exact le_trans zero_le_one (le_max_left _ _)
  have hrb := refill_tokens_bounds now s hnow ht0 hr0 hc0
  unfold acquire at h
  split at h
  · exact absurd h (by simp)
  · dsimp only at h
    split at h
    next h1 =>
      simp only [Except.ok.injEq, Prod.mk.injEq] at h
      obtain ⟨hs', -⟩ := h
      subst hs'
      refine ⟨?_, ?_, ?_, ?_, ?_⟩
      · show 0 ≤ (refill now s).1.tokens - 1
        linarith
      · show (refill now s).1.tokens - 1 ≤ (refill now s).1.capacity
        rw [refill_fst_capacity]
        linarith [hrb.2]
      · show (refill now s).1.capacity = max 1 (refill now s).1.rate
        rw [refill_fst_capacity, refill_fst_rate]
        exact hcap
      · show 0 ≤ (refill now s).1.rate
        rw [refill_fst_rate]
        exact hr0
      · show (refill now s).1.rate ≤ (refill now s).1.config.maxRate
        rw [refill_fst_rate, refill_fst_config]
        exact hrm
    next h1 =>
      simp only [Except.ok.injEq, Prod.mk.injEq] at h
      obtain ⟨hs', -⟩ := h
      subst hs'
      obtain ⟨hft, hfc, hfr, hfg⟩ := schedulePendingCheck_fields
        { (refill now s).1 with pending := (refill now s).1.pending ++ [⟨wid, now⟩] }
      refine ⟨?_, ?_, ?_, ?_, ?_⟩
      · rw [hft]
        exact hrb.1
      · rw [hft, hfc]
        show (refill now s).1.tokens ≤ (refill now s).1.capacity
        rw [refill_fst_capacity]
        exact hrb.2
      · rw [hfc, hfr]
        show (refill now s).1.capacity = max 1 (refill now s).1.rate
        rw [refill_fst_capacity, refill_fst_rate]
        exact hcap
      · rw [hfr]
        show 0 ≤ (refill now s).1.rate
        rw [refill_fst_rate]
        exact hr0
      · rw [hfr, hfg]
        show (refill now s).1.rate ≤ (refill now s).1.config.maxRate
        rw [refill_fst_rate, refill_fst_config]
        exact hrm

theorem onTokenComplete_inv (now : ℚ) (o : Outcome) (s : BucketState)
    (hnow : s.lastRefill ≤ now) (hv : ValidCfg s.config)
    (hd : 0 ≤ s.config.increaseDelta) (hinv : StateInv s) :
    StateInv (onTokenComplete now o s).1 := by
  obtain ⟨ht0, htc, hcap, hr0, hrm⟩ := hinv
  show StateInv (refill now
    (adjustRate now { s with recentOutcomes := s.recentOutcomes ++ [⟨now, o⟩] })).1
  set s₂ := adjustRate now { s with recentOutcomes := s.recentOutcomes ++ [⟨now, o⟩] }
    with hs₂
  have h2cfg : s₂.config = s.config :=
    adjustRate_config now { s with recentOutcomes := s.recentOutcomes ++ [⟨now, o⟩] }
  have h2r0 : 0 ≤ s₂.rate :=
    adjustRate_rate_nonneg now _ hv hd hr0
  have h2rm : s₂.rate ≤ s.config.maxRate :=
    adjustRate_rate_le_max now _ hv hr0 hrm
  have h2cap : s₂.capacity = max 1 s₂.rate :=
    adjustRate_capacity_inv now _ hcap
  have h2tok : s₂.tokens = s.tokens :=
    adjustRate_tokens now _
  have h2lr : s₂.lastRefill = s.lastRefill :=
    adjustRate_lastRefill now _
  have h2c0 : 0 ≤ s₂.capacity := by
    rw [h2cap]
    exact le_trans zero_le_one (le_max_left _ _)
  have hrb := refill_tokens_bounds now s₂ (by rw [h2lr]; exact hnow)
    (by rw [h2tok]; exact ht0) h2r0 h2c0
  refine ⟨hrb.1, ?_, ?_, ?_, ?_⟩
  · rw [refill_fst_capacity]
    exact hrb.2
  · rw [refill_fst_capacity, refill_fst_rate]
    exact h2cap
  · rw [refill_fst_rate]
    exact h2r0
  · rw [refill_fst_rate, refill_fst_config, h2cfg]
    exact h2rm

theorem pendingCheckFire_inv (now : ℚ) (s : BucketState)
    (hnow : s.lastRefill ≤ now) (hinv : StateInv s) :
    StateInv (pendingCheckFire now s).1 := by
  obtain ⟨ht0, htc, hcap, hr0, hrm⟩ := hinv
  have hc0 : 0 ≤ s.capacity := by
    rw [hcap]
    exact le_trans zero_le_one (le_max_left _ _)
  have hrb := refill_tokens_bounds now { s with pendingTimer := false }
    hnow ht0 hr0 hc0
  have hbase : StateInv (refill now { s with pendingTimer := false }).1 := by
    refine ⟨hrb.1, ?_, ?_, ?_, ?_⟩
    · rw [refill_fst_capacity]
      exact hrb.2
    · rw [refill_fst_capacity, refill_fst_rate]
      exact hcap
    · rw [refill_fst_rate]
      exact hr0
    · rw [refill_fst_rate, refill_fst_config]
      exact hrm
  unfold pendingCheckFire
  split
  · dsimp only
    split
    · obtain ⟨hft, hfc, hfr, hfg⟩ := schedulePendingCheck_fields
        (refill now { s with pendingTimer := false }).1
      refine ⟨?_, ?_, ?_, ?_, ?_⟩
      · rw [hft]
        exact hbase.1
      · rw [hft, hfc]
        exact hbase.2.1
      · rw [hfc, hfr]
        exact hbase.2.2.1
      · rw [hfr]
        exact hbase.2.2.2.1
      · rw [hfr, hfg]
        exact hbase.2.2.2.2
    · exact hbase
  · exact ⟨ht0, htc, hcap, hr0, hrm⟩

/-! ## The claims -/

/-- C1.  After every outcome is appended to the ledger (the completion
and expiry paths both run the adjustment on the appended ledger), the
rate adjustment first prunes the ledger to entries within `windowMs` of
`now`; with fewer than 5 remaining entries the rate is unchanged;
otherwise with `failureRate = failCount / total` over the pruned ledger
the rate becomes `max(minRate, rate * decreaseMultiplier)` when
`failureRate > failureThreshold` strictly and
`min(maxRate, rate + increaseDelta)` otherwise (equality at the
threshold increases); afterwards `capacity = max(1, rate)`. -/
theorem rate_adjustment_after_outcome (now : ℚ) (o : Outcome) (s : BucketState)
    (hcap : s.capacity = max 1 s.rate) :
    ∀ L, L = pruneWindow now s.config.windowMs (s.recentOutcomes ++ [⟨now, o⟩]) →
      (onTokenComplete now o s).1.recentOutcomes = L
      ∧ (L.length < 5 → (onTokenComplete now o s).1.rate = s.rate)
      ∧ (5 ≤ L.length →
          ((failCount L : ℚ) / (L.length : ℚ) > s.config.failureThreshold →
            (onTokenComplete now o s).1.rate
              = max s.config.minRate (s.rate * s.config.decreaseMultiplier))
          ∧ ((failCount L : ℚ) / (L.length : ℚ) ≤ s.config.failureThreshold →
            (onTokenComplete now o s).1.rate
              = min s.config.maxRate (s.rate + s.config.increaseDelta)))
      ∧ (onTokenComplete now o s).1.capacity
          = max 1 (onTokenComplete now o s).1.rate := by
  intro L hL
  have hpr : pruneWindow now
      ({ s with recentOutcomes := s.recentOutcomes ++ [⟨now, o⟩] } :
        BucketState).config.windowMs
      ({ s with recentOutcomes := s.recentOutcomes ++ [⟨now, o⟩] } :
        BucketState).recentOutcomes = L := hL.symm
  refine ⟨?_, ?_, ?_, ?_⟩
  · rw [onTokenComplete, refill_fst_recentOutcomes, adjustRate_recentOutcomes, hpr]
  · intro hlen
    rw [onTokenComplete, refill_fst_rate, adjustRate_rate_small]
    rw [hpr]; exact hlen
  · intro hlen
    constructor
    · intro hf
      rw [onTokenComplete, refill_fst_rate, adjustRate_rate_decrease]
      · rw [hpr]; omega
      · rw [hpr]; exact hf
    · intro hf
      rw [onTokenComplete, refill_fst_rate, adjustRate_rate_increase]
      · rw [hpr]; omega
      · rw [hpr]; exact not_lt.mpr hf
  · by_cases hlen : L.length < 5
    · rw [onTokenComplete, refill_fst_capacity, refill_fst_rate,
        adjustRate_capacity_small, adjustRate_rate_small]
      · exact hcap
      · rw [hpr]; exact hlen
      · rw [hpr]; exact hlen
    · rw [onTokenComplete, refill_fst_capacity, refill_fst_rate,
        adjustRate_capacity_large]
      rw [hpr]; exact hlen

theorem validate_ok_iff (c : Config) : validate c = .ok () ↔ ValidCfg c := by
  unfold validate ValidCfg
  split_ifs with h1 h2 h3 h4 h5 h6
  · exact ⟨fun h => by simp at h, fun hv => absurd hv.1 (not_lt.mpr h1)⟩
  · exact ⟨fun h => by simp at h, fun hv => absurd hv.2.1 (not_lt.mpr h2)⟩
  · exact ⟨fun h => by simp at h, fun hv => absurd hv.2.2.1 (not_lt.mpr h3)⟩
  · exact ⟨fun h => by simp at h, fun hv => absurd hv.2.2.2.1 (not_le.mpr h4)⟩
  · refine ⟨fun h => by simp at h, fun hv => ?_⟩
    rcases h5 with h | h
    · exact absurd hv.2.2.2.2.1 (not_lt.mpr h)
    · exact absurd hv.2.2.2.2.2.1 (not_lt.mpr h)
  · refine ⟨fun h => by simp at h, fun hv => ?_⟩
    rcases h6 with h | h
    · exact absurd hv.2.2.2.2.2.2.1 (not_le.mpr h)
    · exact absurd hv.2.2.2.2.2.2.2 (not_le.mpr h)
  · refine ⟨fun _ => ?_, fun _ => rfl⟩
    push_neg at h5 h6
    exact ⟨lt_of_not_le h1, lt_of_not_le h2, lt_of_not_le h3, le_of_not_lt h4,
      h5.1, h5.2, h6.1, h6.2⟩

theorem mkBucket_ok_iff_validate (c : Config) (now : ℚ) :
    (∃ s, mkBucket c now = .ok s) ↔ validate c = .ok () := by
  unfold mkBucket
  cases h : validate c with
  | error e => simp [h]
  | ok u => cases u; simp [h]

theorem mkBucket_error_iff_validate (c : Config) (now : ℚ) :
    (∃ e, mkBucket c now = .error e) ↔ ¬ validate c = .ok () := by
  unfold mkBucket
  cases h : validate c with
  | error e => simp [h]
  | ok u => cases u; simp [h]

/-- C9.  For every configuration (after defaults), construction fails
with a validation error exactly when `initialRate ≤ 0`, `maxRate ≤ 0`,
`minRate ≤ 0`, `minRate > maxRate`, `decreaseMultiplier` outside the
open interval `(0,1)`, or `failureThreshold` outside the closed
interval `[0,1]`; for every other configuration construction
succeeds. -/
theorem construction_validation (c : Config) (now : ℚ) :
    ((∃ e, mkBucket c now = .error e)
        ↔ (c.initialRate ≤ 0 ∨ c.maxRate ≤ 0 ∨ c.minRate ≤ 0
            ∨ c.maxRate < c.minRate
            ∨ c.decreaseMultiplier ≤ 0 ∨ 1 ≤ c.decreaseMultiplier
            ∨ c.failureThreshold < 0 ∨ 1 < c.failureThreshold))
    ∧ ((∃ s, mkBucket c now = .ok s)
        ↔ ¬ (c.initialRate ≤ 0 ∨ c.maxRate ≤ 0 ∨ c.minRate ≤ 0
            ∨ c.maxRate < c.minRate
            ∨ c.decreaseMultiplier ≤ 0 ∨ 1 ≤ c.decreaseMultiplier
            ∨ c.failureThreshold < 0 ∨ 1 < c.failureThreshold)) := by
  have hv : ValidCfg c
      ↔ ¬ (c.initialRate ≤ 0 ∨ c.maxRate ≤ 0 ∨ c.minRate ≤ 0
            ∨ c.maxRate < c.minRate
            ∨ c.decreaseMultiplier ≤ 0 ∨ 1 ≤ c.decreaseMultiplier
            ∨ c.failureThreshold < 0 ∨ 1 < c.failureThreshold) := by
    unfold ValidCfg
    push_neg
    constructor
    · rintro ⟨a1, a2, a3, a4, a5, a6, a7, a8⟩
      exact ⟨lt_of_lt_of_le' a1 le_rfl, a2, a3, a4, a5, a6, a7, a8⟩
    · rintro ⟨a1, a2, a3, a4, a5, a6, a7, a8⟩
      exact ⟨a1, a2, a3, a4, a5, a6, a7, a8⟩
  constructor
  · rw [mkBucket_error_iff_validate, validate_ok_iff, hv, not_not]
  · rw [mkBucket_ok_iff_validate, validate_ok_iff, hv]

/-- Witness for C9 at concrete inputs: `exampleConfig` constructs
successfully, and the all-zero configuration fails. -/
theorem construction_validation_witness :
    (∃ s, mkBucket exampleConfig 0 = .ok s)
    ∧ (∃ e, mkBucket ⟨0, 0, 0, 0, 0, 0, 0, 0⟩ 0 = .error e) :=
  ⟨(construction_validation exampleConfig 0).2.mpr (by norm_num [exampleConfig]),
   (construction_validation ⟨0, 0, 0, 0, 0, 0, 0, 0⟩ 0).1.mpr (by norm_num)⟩

/-- C2 (counterexample).  The invariant `tokens ≤ capacity` fails "at
the point immediately after a multiplicative rate decrease recomputes
capacity": from `exampleConfig` at time 0, four `failure` completions
leave `rate 10, capacity 10, tokens 10`; inside the fifth `failure`
completion, `_adjustRate` halves the rate to 5 and sets
`capacity = 5` while `tokens` is still 10 — `_adjustRate` never clamps
`tokens`, only the `_refill` that follows does. -/
theorem tokens_within_capacity_counterexample :
    ValidCfg exampleConfig
    ∧ mkBucket exampleConfig 0 = .ok exampleInit
    ∧ (onTokenComplete 0 .failure exampleInit).1
        = { exampleInit with recentOutcomes := [failAt0] }
    ∧ (onTokenComplete 0 .failure
          { exampleInit with recentOutcomes := [failAt0] }).1
        = { exampleInit with recentOutcomes := [failAt0, failAt0] }
    ∧ (onTokenComplete 0 .failure
          { exampleInit with recentOutcomes := [failAt0, failAt0] }).1
        = { exampleInit with recentOutcomes := [failAt0, failAt0, failAt0] }
    ∧ (onTokenComplete 0 .failure
          { exampleInit with recentOutcomes := [failAt0, failAt0, failAt0] }).1
        = exampleAfter4
    ∧ onTokenComplete 0 .failure exampleAfter4 = refill 0 exampleMid
    ∧ exampleMid.rate = 5
    ∧ exampleMid.capacity = 5
    ∧ exampleMid.tokens = 10
    ∧ ¬ (exampleMid.tokens ≤ exampleMid.capacity) := by
  refine ⟨?_, ?_, ?_, ?_, ?_, ?_, rfl, ?_, ?_, ?_, ?_⟩ <;>
    norm_num +decide [ValidCfg, mkBucket, validate, onTokenComplete, adjustRate,
      refill, drain, pruneWindow, failCount, exampleConfig, exampleInit,
      exampleAfter4, exampleMid, failAt0]

/-- C2 (amended).  For every valid configuration with a nonnegative
`increaseDelta`, the invariant `0 ≤ tokens ≤ capacity` (together with
`capacity = max(1, rate)` and `0 ≤ rate ≤ maxRate`) holds at
construction and is preserved by every complete operation — acquire,
token completion, token expiry, scheduler tick, shutdown — because the
refill pass that ends completion and expiry re-clamps `tokens` to the
recomputed capacity.  (Transiently inside a completion, immediately
after a multiplicative decrease recomputes capacity, `tokens` may
exceed `capacity`; see the counterexample.) -/
theorem tokens_within_capacity :
    (∀ c now s, ValidCfg c → mkBucket c now = .ok s → StateInv s)
    ∧ (∀ s s', ValidCfg s.config → 0 ≤ s.config.increaseDelta →
        StateInv s → Step s s' → StateInv s') := by
  constructor
  · intro c now s hv h
    unfold mkBucket at h
    split at h
    · exact absurd h (by simp)
    · simp only [Except.ok.injEq] at h
      subst h
      refine ⟨?_, le_refl _, rfl, ?_, min_le_right _ _⟩
      · exact le_trans zero_le_one (le_max_left _ _)
      · exact le_min (le_of_lt hv.1) (le_of_lt hv.2.1)
  · intro s s' hv hd hinv hstep
    cases hstep with
    | acquire now wid sa sa' res served hnow h =>
      exact acquire_ok_inv now wid s s' res served hnow hinv h
    | complete now o sa hnow =>
      exact onTokenComplete_inv now o s hnow hv hd hinv
    | timeoutFire now sa hnow =>
      exact onTokenComplete_inv now .timeout s hnow hv hd hinv
    | tick now sa hnow =>
      exact pendingCheckFire_inv now s hnow hinv
    | shutdownStep sa =>
      exact ⟨hinv.1, hinv.2.1, hinv.2.2.1, hinv.2.2.2.1, hinv.2.2.2.2⟩

/-- Witness for C2 at concrete inputs: the constructed `exampleInit`
satisfies the invariant, and it is preserved across a shutdown step. -/
theorem tokens_within_capacity_witness :
    StateInv exampleInit ∧ StateInv (shutdown exampleInit).1 := by
  have h1 : StateInv exampleInit :=
    tokens_within_capacity.1 exampleConfig 0 exampleInit
      (by norm_num [ValidCfg, exampleConfig])
      (by norm_num [mkBucket, validate, exampleConfig, exampleInit])
  exact ⟨h1,
    tokens_within_capacity.2 exampleInit (shutdown exampleInit).1
      (by norm_num [ValidCfg, exampleConfig, exampleInit])
      (by norm_num [exampleConfig, exampleInit])
      h1 (Step.shutdownStep exampleInit)⟩

/-- C3 (counterexample).  `lowInitConfig` is valid (`initialRate = 1/2`
is positive) but below `minRate = 5`; after five `success` completions
at time 0 the additive increase yields
`rate = min(10, 1/2 + 1) = 3/2`, still below `minRate`: the additive
branch never clamps up to `minRate`, so the invariant
"`minRate ≤ getCurrentRate()` after every adjustment" fails. -/
theorem rate_bounds_counterexample :
    ValidCfg lowInitConfig
    ∧ mkBucket lowInitConfig 0 = .ok lowInitBucket
    ∧ (onTokenComplete 0 .success lowInitBucket).1
        = { lowInitBucket with recentOutcomes := [succAt0] }
    ∧ (onTokenComplete 0 .success
          { lowInitBucket with recentOutcomes := [succAt0] }).1
        = { lowInitBucket with recentOutcomes := [succAt0, succAt0] }
    ∧ (onTokenComplete 0 .success
          { lowInitBucket with recentOutcomes := [succAt0, succAt0] }).1
        = { lowInitBucket with recentOutcomes := [succAt0, succAt0, succAt0] }
    ∧ (onTokenComplete 0 .success
          { lowInitBucket with recentOutcomes := [succAt0, succAt0, succAt0] }).1
        = lowInitAfter4
    ∧ getCurrentRate (onTokenComplete 0 .success lowInitAfter4).1 = 3/2
    ∧ ¬ (lowInitConfig.minRate
          ≤ getCurrentRate (onTokenComplete 0 .success lowInitAfter4).1) := by
  refine ⟨?_, ?_, ?_, ?_, ?_, ?_, ?_, ?_⟩ <;>
    norm_num [ValidCfg, mkBucket, validate, onTokenComplete, adjustRate, refill,
      drain, pruneWindow, failCount, getCurrentRate, lowInitConfig, lowInitBucket,
      lowInitAfter4, succAt0]

/-- C3 (amended).  For every configuration the constructor accepts, the
rate stays at or below `maxRate` through every adjustment (given it was
in `[0, maxRate]` before, as it is at construction).  The lower bound
`minRate ≤ getCurrentRate()` additionally requires
`minRate ≤ initialRate` (the constructor does not clamp the starting
rate up) and `0 ≤ increaseDelta` (the additive step is not validated);
under those, `minRate ≤ getCurrentRate() ≤ maxRate` holds at
construction and is preserved by every rate adjustment. -/
theorem rate_bounds (c : Config) (now now2 : ℚ) (s0 s : BucketState) :
    (ValidCfg c → c.minRate ≤ c.initialRate → mkBucket c now = .ok s0 →
        c.minRate ≤ getCurrentRate s0 ∧ getCurrentRate s0 ≤ c.maxRate)
    ∧ (ValidCfg s.config → 0 ≤ s.config.increaseDelta →
        s.config.minRate ≤ getCurrentRate s →
        getCurrentRate s ≤ s.config.maxRate →
        s.config.minRate ≤ getCurrentRate (adjustRate now2 s)
          ∧ getCurrentRate (adjustRate now2 s) ≤ s.config.maxRate)
    ∧ (ValidCfg s.config → 0 ≤ getCurrentRate s →
        getCurrentRate s ≤ s.config.maxRate →
        getCurrentRate (adjustRate now2 s) ≤ s.config.maxRate) := by
  refine ⟨?_, ?_, ?_⟩
  · intro hv hmi h
    unfold mkBucket at h
    split at h
    · exact absurd h (by simp)
    · simp only [Except.ok.injEq] at h
      subst h
      exact ⟨le_min hmi hv.2.2.2.1, min_le_right _ _⟩
  · intro hv hd hmin hmax
    have h0 : 0 ≤ s.rate := le_trans (le_of_lt hv.2.2.1) hmin
    exact ⟨adjustRate_rate_ge_min now2 s hv hd hmin,
           adjustRate_rate_le_max now2 s hv h0 hmax⟩
  · intro hv h0 hmax
    exact adjustRate_rate_le_max now2 s hv h0 hmax

/-- Witness for C3 at concrete inputs: from `exampleInit`
(rate 10 = maxRate ≥ minRate 1), one adjustment at time 0 keeps the
rate within `[minRate, maxRate]`. -/
theorem rate_bounds_witness :
    exampleInit.config.minRate ≤ getCurrentRate (adjustRate 0 exampleInit)
    ∧ getCurrentRate (adjustRate 0 exampleInit) ≤ exampleInit.config.maxRate :=
  (rate_bounds exampleConfig 0 0 exampleInit exampleInit).2.1
    (by norm_num [ValidCfg, exampleConfig, exampleInit])
    (by norm_num [exampleConfig, exampleInit])
    (by norm_num [getCurrentRate, exampleConfig, exampleInit])
    (by norm_num [getCurrentRate, exampleConfig, exampleInit])

/-- C4 (counterexample).  `lowInitConfig` has `initialRate = 1/2` below
`minRate = 5` and passes validation, yet the constructed bucket starts
at rate `1/2`, not at `minRate`: the constructor clamps only from above
(`rate = min(initialRate, maxRate)`), never up to `minRate`. -/
theorem starting_rate_counterexample :
    mkBucket lowInitConfig 0 = .ok lowInitBucket
    ∧ lowInitConfig.initialRate < lowInitConfig.minRate
    ∧ getCurrentRate lowInitBucket = 1/2
    ∧ getCurrentRate lowInitBucket ≠ lowInitConfig.minRate
    ∧ getCurrentRate lowInitBucket
        ≠ max lowInitConfig.minRate
            (min lowInitConfig.initialRate lowInitConfig.maxRate) := by
  refine ⟨?_, ?_, ?_, ?_, ?_⟩ <;>
    norm_num [mkBucket, validate, getCurrentRate, lowInitConfig, lowInitBucket]

/-- C4 (amended).  For every configuration the constructor accepts, the
starting rate is `min(initialRate, maxRate)`: it is clamped from above
by `maxRate` only, and when `initialRate < minRate` the starting rate
is `initialRate` itself, not `minRate`. -/
theorem starting_rate (c : Config) (now : ℚ) (s : BucketState)
    (h : mkBucket c now = .ok s) :
    getCurrentRate s = min c.initialRate c.maxRate := by
  unfold mkBucket at h
  split at h
  · exact absurd h (by simp)
  · simp only [Except.ok.injEq] at h
    rw [← h]
    rfl

/-- Witness for C4 at a concrete input: `lowInitConfig` constructs at
rate `min(1/2, 10)`. -/
theorem starting_rate_witness :
    getCurrentRate lowInitBucket
      = min lowInitConfig.initialRate lowInitConfig.maxRate :=
  starting_rate lowInitConfig 0 lowInitBucket
    (by norm_num [mkBucket, validate, lowInitConfig, lowInitBucket])

/-- C5 (counterexample).  The claim "refill(now) sets tokens to
min(capacity, tokens + (now - lastRefillTime)/1000 * rate)" fails on a
reachable state with a queued waiter: starting from `unitConfig` at
time 0, an immediate acquire empties the reservoir, a second acquire
queues waiter 1; refilling at time 1000 accrues one token but serves
the waiter with it, leaving `tokens = 0` where the claim predicts 1. -/
theorem refill_contract_counterexample :
    mkBucket unitConfig 0 = .ok unitInit
    ∧ acquire 0 0 unitInit = .ok (unitAfter1, .issued, [])
    ∧ acquire 0 1 unitAfter1 = .ok (oneWaiterBucket, .enqueued ⟨1, 0⟩, [])
    ∧ min oneWaiterBucket.capacity
        (oneWaiterBucket.tokens
          + (1000 - oneWaiterBucket.lastRefill) / 1000 * oneWaiterBucket.rate) = 1
    ∧ (refill 1000 oneWaiterBucket).1.tokens = 0
    ∧ ¬ ((refill 1000 oneWaiterBucket).1.tokens
          = min oneWaiterBucket.capacity
              (oneWaiterBucket.tokens
                + (1000 - oneWaiterBucket.lastRefill) / 1000 * oneWaiterBucket.rate)) := by
  refine ⟨?_, ?_, ?_, ?_, ?_, ?_⟩ <;>
    norm_num [mkBucket, validate, acquire, refill, drain, schedulePendingCheck,
      unitConfig, unitInit, unitAfter1, oneWaiterBucket]

/-- C5 (amended).  `refill(now)` sets `lastRefillTime` to `now` and
first advances the reservoir to
`min(capacity, tokens + (now - lastRefillTime)/1000 * rate)`; it then
additionally serves queued waiters FIFO from the front of the queue,
consuming one token per waiter served, so the final token count is the
advanced value minus the number of waiters served; when the waiter
queue is empty the final count is exactly the advanced value; and
refill at a fixed `now` is idempotent. -/
theorem refill_contract (now : ℚ) (s : BucketState) (ht : s.lastRefill ≤ now) :
    (refill now s).1.lastRefill = now
    ∧ (s.pending = [] →
        (refill now s).1.tokens
          = min s.capacity (s.tokens + (now - s.lastRefill) / 1000 * s.rate))
    ∧ (refill now s).1.tokens
        = min s.capacity (s.tokens + (now - s.lastRefill) / 1000 * s.rate)
          - ((refill now s).2.length : ℚ)
    ∧ (refill now s).2 ++ (refill now s).1.pending = s.pending
    ∧ refill now ((refill now s).1) = ((refill now s).1, []) := by
  refine ⟨refill_fst_lastRefill now s, ?_, ?_, ?_, refill_idem now s⟩
  · intro hp
    rw [refill_eq]
    dsimp only
    rw [hp]
    simp [drain]
  · rw [refill_eq]
    dsimp only
    rw [drain_tokens_eq, drain_served_count]
  · rw [refill_eq]
    dsimp only
    exact drain_partition _ _

/-- Witness for C5 at a concrete input: refilling `oneWaiterBucket` at
time 1000 serves the queued waiter and is idempotent. -/
theorem refill_contract_witness :
    (refill 1000 oneWaiterBucket).1.lastRefill = 1000
    ∧ refill 1000 ((refill 1000 oneWaiterBucket).1)
        = ((refill 1000 oneWaiterBucket).1, []) :=
  ⟨(refill_contract 1000 oneWaiterBucket (by norm_num [oneWaiterBucket])).1,
   (refill_contract 1000 oneWaiterBucket (by norm_num [oneWaiterBucket])).2.2.2.2⟩

/-- C6.  Completing a Pending token (any of the four kinds) appends
exactly one outcome of that kind to the ledger (which the rate
adjustment then prunes to the window), cancels the expiry timer and
makes `isCompleted()` true; completing an already-completed token fails
with the AlreadyCompleted error, and completing an expired (and not
completed) token fails with the Expired error.  In the two failure
cases the call throws before any mutation, so no new token state,
ledger or rate is produced. -/
theorem token_completion (o : Outcome) (now : ℚ) (t : TokenState) (b : BucketState) :
    (t.completed = false → t.expired = false →
      ∃ t' b' served, tokenComplete o now t b = .ok (t', b', served)
        ∧ isCompleted t' = true
        ∧ t'.timerArmed = false
        ∧ t'.expired = t.expired
        ∧ b'.recentOutcomes
            = pruneWindow now b.config.windowMs (b.recentOutcomes ++ [⟨now, o⟩])
        ∧ (b', served) = onTokenComplete now o b)
    ∧ (t.completed = true → tokenComplete o now t b = .error .alreadyCompleted)
    ∧ (t.completed = false → t.expired = true →
        tokenComplete o now t b = .error .expired) := by
  refine ⟨?_, ?_, ?_⟩
  · intro hc he
    have hgo : tokenComplete o now t b
        = .ok ({ t with completed := true, timerArmed := false },
            (onTokenComplete now o b).1, (onTokenComplete now o b).2) := by
      unfold tokenComplete
      rw [hc, he]
      simp
    refine ⟨_, _, _, hgo, rfl, rfl, rfl, ?_, rfl⟩
    rw [onTokenComplete, refill_fst_recentOutcomes, adjustRate_recentOutcomes]
  · intro hc
    unfold tokenComplete
    rw [hc]
    simp
  · intro hc he
    unfold tokenComplete
    rw [hc, he]
    simp

/-- Witness for C6 at a concrete input: completing a fresh token (30 s
expiry) as `rateLimited` against `exampleInit` succeeds, and a second
completion on the resulting token state fails with AlreadyCompleted. -/
theorem token_completion_witness :
    (∃ t' b' served,
        tokenComplete Outcome.rateLimited 0 (mkToken 30000) exampleInit
          = .ok (t', b', served) ∧ isCompleted t' = true ∧ t'.timerArmed = false
          ∧ t'.expired = (mkToken 30000).expired
          ∧ b'.recentOutcomes = pruneWindow 0 exampleInit.config.windowMs
              (exampleInit.recentOutcomes ++ [⟨0, Outcome.rateLimited⟩])
          ∧ (b', served) = onTokenComplete 0 Outcome.rateLimited exampleInit)
    ∧ tokenComplete Outcome.success 0 ⟨true, false, false⟩ exampleInit
        = .error .alreadyCompleted :=
  ⟨(token_completion Outcome.rateLimited 0 (mkToken 30000) exampleInit).1 rfl rfl,
   (token_completion Outcome.success 0 ⟨true, false, false⟩ exampleInit).2.1 rfl⟩

/-- C7.  A token constructed with `tokenReturnTimeoutMs > 0` arms its
expiry timer; while the token is unconsumed the timer firing marks it
expired (`isExpired()` true) and records a `timeout` outcome in the
ledger.  A token constructed with timeout 0 never arms the timer, and
an unarmed timer can never fire, so the token never auto-expires. -/
theorem token_expiry (tm now : ℚ) (t : TokenState) (b : BucketState) :
    (0 < tm → (mkToken tm).timerArmed = true ∧ (mkToken tm).expired = false)
    ∧ (t.timerArmed = true →
        (tokenTimerFire now t b).1.expired = true
        ∧ isExpired (tokenTimerFire now t b).1 = true
        ∧ (tokenTimerFire now t b).2.1.recentOutcomes
            = pruneWindow now b.config.windowMs
                (b.recentOutcomes ++ [⟨now, Outcome.timeout⟩]))
    ∧ (mkToken 0).timerArmed = false
    ∧ (t.timerArmed = false → tokenTimerFire now t b = (t, b, [])) := by
  refine ⟨?_, ?_, ?_, ?_⟩
  · intro htm
    exact ⟨by simp [mkToken, htm], rfl⟩
  · intro ha
    have hfire : tokenTimerFire now t b
        = ({ t with expired := true, timerArmed := false },
           (onTokenTimeout now b).1, (onTokenTimeout now b).2) := by
      unfold tokenTimerFire
      rw [ha]
      simp
    rw [hfire]
    refine ⟨rfl, rfl, ?_⟩
    rw [onTokenTimeout, onTokenComplete, refill_fst_recentOutcomes,
      adjustRate_recentOutcomes]
  · simp [mkToken]
  · intro ha
    unfold tokenTimerFire
    rw [ha]
    simp

/-- Witness for C7 at a concrete input: a 30 s token is armed and its
timer firing at time 0 against `exampleInit` expires it; a 0-timeout
token is unarmed and firing is a no-op. -/
theorem token_expiry_witness :
    ((mkToken 30000).timerArmed = true ∧ (mkToken 30000).expired = false)
    ∧ (tokenTimerFire 0 (mkToken 30000) exampleInit).1.expired = true
    ∧ tokenTimerFire 0 (mkToken 0) exampleInit = (mkToken 0, exampleInit, []) :=
  ⟨(token_expiry 30000 0 (mkToken 30000) exampleInit).1 (by norm_num),
   ((token_expiry 30000 0 (mkToken 30000) exampleInit).2.1
     (by norm_num [mkToken])).1,
   (token_expiry 0 0 (mkToken 0) exampleInit).2.2.2 (by norm_num [mkToken])⟩

/-- C8.  `shutdown()` rejects exactly the queued waiters, in FIFO order
of enqueue (the rejection list is the queue itself, each rejected with
the ShutDown error), empties the queue and disarms the pending-check
timer; every `acquire` on a shut-down bucket fails synchronously with
the ShutDown error before any mutation, so tokens, ledger and rate are
untouched. -/
theorem shutdown_behavior (s : BucketState) (now : ℚ) (wid : ℕ) :
    ((shutdown s).2 = s.pending
      ∧ (shutdown s).1.pending = []
      ∧ (shutdown s).1.pendingTimer = false
      ∧ (shutdown s).1.isShutdown = true
      ∧ (shutdown s).1.tokens = s.tokens
      ∧ (shutdown s).1.recentOutcomes = s.recentOutcomes
      ∧ (shutdown s).1.rate = s.rate)
    ∧ (s.isShutdown = true → acquire now wid s = .error .shutDown)
    ∧ acquire now wid (shutdown s).1 = .error .shutDown := by
  refine ⟨⟨rfl, rfl, rfl, rfl, rfl, rfl, rfl⟩, ?_, ?_⟩
  · intro h
    unfold acquire
    rw [h]
    simp
  · unfold acquire
    simp [shutdown]

/-- Witness for C8 at a concrete input: shutting down `oneWaiterBucket`
rejects its single queued waiter and empties the queue, and a
subsequent acquire fails with ShutDown. -/
theorem shutdown_behavior_witness :
    (shutdown oneWaiterBucket).2 = oneWaiterBucket.pending
    ∧ acquire 2000 7 (shutdown oneWaiterBucket).1 = .error .shutDown :=
  ⟨((shutdown_behavior oneWaiterBucket 2000 7).1).1,
   (shutdown_behavior oneWaiterBucket 2000 7).2.2⟩

/-- C10.  When the sliding window holds no outcomes, `getStatistics`
reports `successRate = 0` (the guard `total > 0` avoids 0/0); and
`getStatistics` is a pure read: run as a state transformer it returns
the statistics and leaves every field of the bucket unchanged. -/
theorem statistics_empty_window (now : ℚ) (s : BucketState) :
    ((pruneWindow now s.config.windowMs s.recentOutcomes).length = 0 →
      (getStatistics now s).successRate = 0)
    ∧ (getStatisticsRun now s).2 = s := by
  refine ⟨?_, rfl⟩
  intro h
  unfold getStatistics
  dsimp only
  rw [h]
  simp

/-- Witness for C10 at a concrete input: a bucket whose only outcome is
31 s old at `now = 31000` has an empty window and reports
`successRate = 0`. -/
theorem statistics_empty_window_witness :
    (getStatistics 31000
        { exampleInit with recentOutcomes := [succAt0] }).successRate = 0 :=
  (statistics_empty_window 31000
      { exampleInit with recentOutcomes := [succAt0] }).1
    (by norm_num [pruneWindow, succAt0, exampleInit, exampleConfig])

/-- Witness for C1 at a concrete input: `exampleInit` with four recorded
successes, completing a fifth success at time 0, increases the rate to
`min(10, 10 + 1) = 10`. -/
theorem rate_adjustment_after_outcome_witness :
    (onTokenComplete 0 Outcome.success exampleFourSucc).1.rate
      = min exampleFourSucc.config.maxRate
          (exampleFourSucc.rate + exampleFourSucc.config.increaseDelta) :=
  ((rate_adjustment_after_outcome 0 Outcome.success exampleFourSucc
      (by norm_num [exampleFourSucc, exampleInit, exampleConfig])
      (pruneWindow 0 exampleFourSucc.config.windowMs
        (exampleFourSucc.recentOutcomes ++ [⟨0, Outcome.success⟩]))
      rfl).2.2.1
    (by norm_num [pruneWindow, succAt0, exampleFourSucc, exampleInit, exampleConfig])).2
    (by norm_num [pruneWindow, failCount, succAt0, exampleFourSucc, exampleInit,
      exampleConfig])

end AIMD
